import Mathlib

/-!
Verification of the listing-enrichment pipeline implemented by the scraping
scripts of this repository.  The JavaScript sources are shallowly embedded:

* the UK Reiki Puppeteer scraper (first script in `src/scrapers/index.js`),
* the Holland dentists Places-API scraper (second script in the same file),
* the Hungary dentists Puppeteer scraper (the unnamed `.mjs` source file).

External effects (page navigation, HTTP fetches, DOM queries) are passed in
as explicit world parameters; every function of the repository that the
claims mention is translated into an executable Lean definition.
-/

/- ===================== Email regular expressions ===================== -/

/-- Character class `[a-zA-Z0-9._%+-]` of the local part of the e-mail regex
`/[a-zA-Z0-9._%+-]+@[a-zA-Z0-9.-]+\.[a-z]{2,}/gi` shared by all three
scripts (the API script spells the TLD class `[a-zA-Z]`, which equals
`[a-z]` under the `i` flag). -/
def isLocalChar (c : Char) : Bool :=
  c.isAlphanum || c = '.' || c = '_' || c = '%' || c = '+' || c = '-'

/-- Character class `[a-zA-Z0-9.-]` of the domain part. -/
def isDomainChar (c : Char) : Bool :=
  c.isAlphanum || c = '.' || c = '-'

/-- Character class `[a-z]` under the `i` flag (resp. `[a-zA-Z]`). -/
def isTldChar (c : Char) : Bool := c.isAlpha

/-- Length of the maximal prefix run of characters satisfying `p`
(the text a greedy `X+` consumes before backtracking). -/
def runLen (p : Char → Bool) : List Char → Nat
  | [] => 0
  | c :: rest => if p c then runLen p rest + 1 else 0

/-- Backtracking step of `[a-zA-Z0-9.-]+\.[a-z]{2,}`: the greedy `+` first
consumes the maximal domain-character run `m`; the engine then retries
shorter runs `b = m, m-1, ..., 1`, requiring a literal `.` followed by at
least two letters, and the final greedy `{2,}` consumes the maximal letter
run.  Returns the total number of characters consumed. -/
def domainBack (rest : List Char) : Nat → Option Nat
  | 0 => none
  | b + 1 =>
    match rest.drop (b + 1) with
    | '.' :: tld =>
      let r := runLen isTldChar tld
      if 2 ≤ r then some ((b + 1) + 1 + r) else domainBack rest b
    | _ => domainBack rest b

/-- Match of the full e-mail pattern anchored at the head of `l`, returning
the match length.  The greedy `[a-zA-Z0-9._%+-]+` can only succeed with its
maximal run (any shorter run is followed by another local character, never
by `@`), after which `@` and the domain pattern must follow. -/
def matchEmailAt (l : List Char) : Option Nat :=
  let n := runLen isLocalChar l
  if n = 0 then none
  else
    match l.drop n with
    | '@' :: rest =>
      match domainBack rest (runLen isDomainChar rest) with
      | some d => some (n + 1 + d)
      | none => none
    | _ => none

/-- One pass of `String.prototype.match` with the global e-mail regex:
the engine looks for the leftmost match, records it, and resumes scanning
at the match end (`lastIndex`).  Fuel is the remaining input length. -/
def scanEmailsAux : Nat → List Char → List (List Char)
  | 0, _ => []
  | _, [] => []
  | fuel + 1, l =>
    match matchEmailAt l with
    | some n => l.take n :: scanEmailsAux fuel (l.drop n)
    | none => scanEmailsAux fuel l.tail

/-- All matches of the e-mail regex in `s`, in order — the value of
`s.match(emailRegex)` (with `null` represented by the empty list). -/
def scanEmails (s : String) : List String :=
  (scanEmailsAux s.data.length s.data).map String.mk

/-- The `emailRegex.test(e)` check used on `mailto:` targets in the Reiki
script: true iff the regex matches somewhere in `e`. -/
def emailShaped (e : String) : Bool := !(scanEmails e).isEmpty

/-- Character class `[^\s@]` of the plainer shape check
`/[^\s@]+@[^\s@]+\.[^\s@]+/` used by the API script on decoded `mailto:`
targets. -/
def isMailChar (c : Char) : Bool := !c.isWhitespace && c != '@'

/-- After `x@y` with at least one domain character consumed: scan for a
literal `.` followed by at least one further `[^\s@]` character, allowing
the part before the dot to keep growing (the class contains `.`). -/
def p2Dot : List Char → Bool
  | [] => false
  | c :: rest =>
    (c = '.' && (match rest with | d :: _ => isMailChar d | [] => false))
    || (isMailChar c && p2Dot rest)

/-- After the run before `@`: consume further `[^\s@]` characters until the
literal `@`, then require a nonempty domain with an inner dot. -/
def p2Head : List Char → Bool
  | [] => false
  | '@' :: rest =>
    match rest with
    | y :: ys => isMailChar y && p2Dot ys
    | [] => false
  | c :: rest => isMailChar c && p2Head rest

/-- The `/[^\s@]+@[^\s@]+\.[^\s@]+/.test(em)` check: true iff some
substring of the input is of the form `x@y.z` with `x`, `y`, `z` nonempty
runs of non-space non-`@` characters. -/
def p2Test : List Char → Bool
  | [] => false
  | c :: rest => (isMailChar c && p2Head rest) || p2Test rest

/- ===================== String helpers ===================== -/

/-- Whether `pre` is a prefix of `l`. -/
def prefixOf : List Char → List Char → Bool
  | [], _ => true
  | _ :: _, [] => false
  | a :: as, b :: bs => a = b && prefixOf as bs

/-- Whether `needle` occurs as a contiguous substring of `l`. -/
def substrOf (needle : List Char) : List Char → Bool
  | [] => prefixOf needle []
  | c :: rest => prefixOf needle (c :: rest) || substrOf needle rest

/-- JavaScript `s.includes(sub)`. -/
def strIncludes (s sub : String) : Bool := substrOf sub.data s.data

/-- Case-insensitive prefix removal; `none` when `pre` is not a prefix
(used for `replace(/^mailto:/i, '')` and `/^https?:\/\//i`). -/
def stripCaseless : List Char → List Char → Option (List Char)
  | [], l => some l
  | _ :: _, [] => none
  | a :: as, b :: bs => if a.toLower = b.toLower then stripCaseless as bs else none

example : scanEmails "reach us: info@example.com" = ["info@example.com"] := by decide
example : scanEmails "a.b@c.d@e.fg!" = ["c.d@e.fg"] := by decide
example : scanEmails "contact info@example.com or bob@test.co.uk." =
    ["info@example.com", "bob@test.co.uk"] := by decide
example : scanEmails "no at sign here" = [] := by decide
example : scanEmails "x@y.c" = [] := by decide
example : emailShaped "mail me at a@b.co" = true := by decide
example : p2Test "a@b.c".data = true := by decide
example : p2Test "a@bc".data = false := by decide
example : p2Test "a@.c".data = false := by decide
example : strIncludes "info@example.com" "example.com" = true := by decide
example : strIncludes "info@w3.org" "example.com" = false := by decide

/- ============ Browser-backed email extractor (Reiki script) ============ -/

/-- A fetched page as seen by `scrapeWebsiteForEmail` in the Reiki script:
the list of `mailto:` anchor targets produced by
`links.map(link => link.href.replace("mailto:", "").trim())` and the raw
markup returned by `page.content()`. -/
structure BPage where
  mailtoLinks : List String
  content : String
deriving Repr, DecidableEq

/-- The placeholder filter of the Reiki script:
`!e.includes("example.com") && !e.includes("w3.org")`. -/
def reikiFilter (e : String) : Bool :=
  !(strIncludes e "example.com") && !(strIncludes e "w3.org")

/-- Per-path body of the Reiki extractor loop: prefer a `mailto:` target
that matches the e-mail regex; otherwise scan the page markup and keep the
first match surviving the placeholder filter. -/
def checkPage (p : BPage) : Option String :=
  match p.mailtoLinks.find? emailShaped with
  | some e => some e
  | none => (scanEmails p.content).find? reikiFilter

/-- The Reiki script's `url.replace(/\/$/, "")`. -/
def stripTrailingSlash (url : String) : String :=
  if url.data.getLast? = some '/' then String.mk url.data.dropLast else url

/-- The Reiki script's `path ? url.replace(/\/$/, "") + path : url`. -/
def targetUrl (url path : String) : String :=
  if path = "" then url else stripTrailingSlash url ++ path

/-- The candidate paths probed by the Reiki extractor, in source order. -/
def possiblePaths : List String := ["", "/contact", "/contact-us", "/about", "/about-us"]

/-- The path loop of `scrapeWebsiteForEmail`.  `fetch` is the world: the
outcome of `page.goto` plus the subsequent DOM queries for each target URL;
a navigation failure (`Except.error`) aborts the whole loop, to be caught
by the surrounding `try`. -/
def goPathsE (url : String) (fetch : String → Except String BPage) :
    List String → Except String (Option String)
  | [] => Except.ok none
  | p :: ps =>
    match fetch (targetUrl url p) with
    | Except.error e => Except.error e
    | Except.ok page =>
      match checkPage page with
      | some e => Except.ok (some e)
      | none => goPathsE url fetch ps

/-- `scrapeWebsiteForEmail(url, browser)` of the Reiki script: reject an
empty URL, probe the candidate paths in order, and convert any thrown
navigation error into `null` (the `catch` branch). -/
def scrapeWebsiteForEmail (url : String) (fetch : String → Except String BPage) :
    Option String :=
  if url = "" then none
  else
    match goPathsE url fetch possiblePaths with
    | Except.ok r => r
    | Except.error _ => none

/- ============ HTTP-backed email extractor (API script) ============ -/

/-- Hex digit value, for percent-decoding. -/
def hexVal (c : Char) : Option Nat :=
  if '0' ≤ c ∧ c ≤ '9' then some (c.toNat - '0'.toNat)
  else if 'a' ≤ c ∧ c ≤ 'f' then some (c.toNat - 'a'.toNat + 10)
  else if 'A' ≤ c ∧ c ≤ 'F' then some (c.toNat - 'A'.toNat + 10)
  else none

/-- Token stream for `decodeURIComponent`: literal characters and
percent-escaped bytes. -/
inductive PctTok where
  | lit (c : Char)
  | byte (b : Nat)
deriving Repr, DecidableEq

/-- Tokenize a percent-encoded string; `none` on a malformed escape
(JavaScript throws `URIError`). -/
def pctTokens : List Char → Option (List PctTok)
  | [] => some []
  | '%' :: h :: l :: rest => do
    let hv ← hexVal h
    let lv ← hexVal l
    let ts ← pctTokens rest
    pure (PctTok.byte (16 * hv + lv) :: ts)
  | '%' :: _ => none
  | c :: rest => (pctTokens rest).map (PctTok.lit c :: ·)

/-- Whether a byte is a UTF-8 continuation byte. -/
def isCont (b : Nat) : Bool := 0x80 ≤ b && b ≤ 0xBF

/-- Decode the token stream: literal characters pass through and escaped
bytes must form valid UTF-8 sequences, per the ECMA-262 `Decode` abstract
operation backing `decodeURIComponent`; `none` models a thrown `URIError`. -/
def decodePct : List PctTok → Option (List Char)
  | [] => some []
  | PctTok.lit c :: rest => (decodePct rest).map (c :: ·)
  | PctTok.byte b :: rest =>
    if b < 0x80 then (decodePct rest).map (Char.ofNat b :: ·)
    else if 0xC2 ≤ b ∧ b ≤ 0xDF then
      match rest with
      | PctTok.byte b2 :: rest2 =>
        if isCont b2 then
          (decodePct rest2).map (Char.ofNat ((b - 0xC0) * 64 + (b2 - 0x80)) :: ·)
        else none
      | _ => none
    else if 0xE0 ≤ b ∧ b ≤ 0xEF then
      match rest with
      | PctTok.byte b2 :: PctTok.byte b3 :: rest2 =>
        let cp := (b - 0xE0) * 4096 + (b2 - 0x80) * 64 + (b3 - 0x80)
        if isCont b2 && isCont b3 && decide (0x800 ≤ cp) &&
            !(decide (0xD800 ≤ cp) && decide (cp ≤ 0xDFFF)) then
          (decodePct rest2).map (Char.ofNat cp :: ·)
        else none
      | _ => none
    else if 0xF0 ≤ b ∧ b ≤ 0xF4 then
      match rest with
      | PctTok.byte b2 :: PctTok.byte b3 :: PctTok.byte b4 :: rest2 =>
        let cp := (b - 0xF0) * 262144 + (b2 - 0x80) * 4096 + (b3 - 0x80) * 64 + (b4 - 0x80)
        if isCont b2 && isCont b3 && isCont b4 && decide (0x10000 ≤ cp) &&
            decide (cp ≤ 0x10FFFF) then
          (decodePct rest2).map (Char.ofNat cp :: ·)
        else none
      | _ => none
    else none

/-- Model of the JavaScript builtin `decodeURIComponent`; `none` when it
would throw `URIError`. -/
def decodeURIComponentM (s : String) : Option String :=
  (pctTokens s.data).bind (fun ts => (decodePct ts).map String.mk)

/-- The API script's `mailto.replace(/^mailto:/i, '')`. -/
def stripMailto (s : String) : String :=
  match stripCaseless "mailto:".data s.data with
  | some r => String.mk r
  | none => s

/-- The API script's `.split('?')[0]`: everything before the first `?`. -/
def takeBeforeQ (s : String) : String := String.mk (s.data.takeWhile (· ≠ '?'))

/-- The API script's scheme test `/^https?:\/\//i.test(url)`. -/
def startsHttp (u : String) : Bool :=
  (stripCaseless "http://".data u.data).isSome ||
  (stripCaseless "https://".data u.data).isSome

/-- Scheme normalization: `if (!/^https?:\/\//i.test(url)) url = 'http://' + url`. -/
def normalizeUrl (u : String) : String :=
  if startsHttp u then u else "http://" ++ u

/-- An HTTP response as seen by `extractEmailFromWebsite`: the `res.ok`
flag, the body text, and the `href` attribute of the first
`a[href^='mailto:']` anchor found by cheerio in that body (carried
explicitly, since the DOM query is an external collaborator). -/
structure APage where
  resOk : Bool
  html : String
  mailtoFirst : Option String
deriving Repr, DecidableEq

/-- The fall-through of the API extractor: `html.match(emailRegex)` and
`return emails[0]`, with no placeholder filtering. -/
def apiFallbackScan (html : String) : Option String := (scanEmails html).head?

/-- `extractEmailFromWebsite(url)` of the API script.  `url` is the
nullable `website` field; `fetch` is the world giving the outcome of the
HTTP GET.  All failure modes (`!url`, network error, non-2xx status,
malformed decode, no match) yield `none`; the function never propagates an
error to its caller. -/
def extractEmailFromWebsite (url : Option String)
    (fetch : String → Except String APage) : Option String :=
  match url with
  | none => none
  | some u =>
    if u = "" then none
    else
      match fetch (normalizeUrl u) with
      | Except.error _ => none
      | Except.ok res =>
        if !res.resOk then none
        else
          match res.mailtoFirst with
          | some mh =>
            if mh = "" then apiFallbackScan res.html
            else
              match decodeURIComponentM (takeBeforeQ (stripMailto mh)) with
              | none => none
              | some em =>
                if p2Test em.data then some em else apiFallbackScan res.html
          | none => apiFallbackScan res.html

/- ============ HTTP-backed email extractor (Hungary script) ============ -/

/-- `scrapeWebsiteForEmail(url)` of the Hungary dentists script: a plain
axios GET (outcome supplied as `fetched`), then
`matches.find(email => !email.includes('example.com')) || null`; note that
this variant filters only `example.com`, not `w3.org`. -/
def scrapeWebsiteForEmailHU (url : String) (fetched : Except String String) :
    Option String :=
  if url = "" then none
  else
    match fetched with
    | Except.error _ => none
    | Except.ok html =>
      (scanEmails html).find? (fun e => !(strIncludes e "example.com"))

example : decodeURIComponentM "info%40clinic.hu" = some "info@clinic.hu" := by decide
example : decodeURIComponentM "plain@x.co" = some "plain@x.co" := by decide
example : decodeURIComponentM "bad%zz" = none := by decide
example : stripMailto "MAILTO:a@b.co" = "a@b.co" := by decide
example : takeBeforeQ "a@b.co?subject=hi" = "a@b.co" := by decide
example : normalizeUrl "example.hu" = "http://example.hu" := by decide
example : normalizeUrl "HTTPS://example.hu" = "HTTPS://example.hu" := by decide
example :
    extractEmailFromWebsite (some "x.co")
      (fun _ => Except.ok ⟨true, "reach us: info@example.com", none⟩) =
    some "info@example.com" := by decide
example :
    scrapeWebsiteForEmailHU "http://x.co" (Except.ok "www info@w3.org yes") =
    some "info@w3.org" := by decide
example :
    scrapeWebsiteForEmail "http://x.co"
      (fun u => if u = "http://x.co"
        then Except.ok ⟨[], "only w@example.com here"⟩
        else Except.error "nav") = none := by decide

/- ============ Places-API pipeline (Holland dentists script) ============ -/

/-- A raw result item of a Places text-search page, with the fields the
script reads (`r.place_id`, `r.name`, `r.formatted_address`; the latter
two may be absent from the JSON). -/
structure RawPlace where
  place_id : String
  name : Option String
  formatted_address : Option String
deriving Repr, DecidableEq

/-- An entry of the `records` map:
`{ place_id, name: r.name, address: r.formatted_address }`. -/
structure PlaceRec where
  place_id : String
  name : Option String
  address : Option String
deriving Repr, DecidableEq

/-- The record stored for a raw result on first sight. -/
def toRec (r : RawPlace) : PlaceRec :=
  { place_id := r.place_id, name := r.name, address := r.formatted_address }

/-- `records.has(r.place_id)` over the insertion-ordered map contents. -/
def hasId (records : List PlaceRec) (id : String) : Bool :=
  records.any (fun r => r.place_id = id)

/-- The body of `for (const r of page.results)`: insert each result whose
`place_id` is unseen, keeping Map insertion order. -/
def addPage (records : List PlaceRec) (rs : List RawPlace) : List PlaceRec :=
  rs.foldl (fun acc r => if hasId acc r.place_id then acc else acc ++ [toRec r]) records

/-- A decoded text-search response: its `status` collapsed to whether it is
`REQUEST_DENIED` (which makes `textSearch` throw), the `results` array and
the optional `next_page_token`. -/
structure SearchPage where
  denied : Bool
  results : List RawPlace
  next_page_token : Option String
deriving Repr, DecidableEq

/-- One region's worth of world: the response to the initial
`textSearch({location})` and the successive responses to
`textSearch({pagetoken})`, consumed in order. -/
structure RegionFeed where
  name : String
  first : SearchPage
  nexts : List SearchPage
deriving Repr

/-- The pagination loop `for (let i = 0; i < 2 && token; i++)`.  Each
iteration issues one fetch (recorded as the `records` size at the moment
the request is sent); a `REQUEST_DENIED` throw from `textSearch` is caught
by the inner `try` and breaks the loop. -/
def paginate : Option String → List SearchPage → Nat → List PlaceRec →
    List PlaceRec × List Nat
  | none, _, _, recs => (recs, [])
  | some _, nexts, i, recs =>
    if 2 ≤ i then (recs, [])
    else
      match nexts with
      | [] => (recs, [])
      | resp :: rest =>
        let ev := recs.length
        if resp.denied then (recs, [ev])
        else
          let out := paginate resp.next_page_token rest (i + 1) (addPage recs resp.results)
          (out.1, ev :: out.2)

/-- Running state of the collection loop: the `records` map contents, the
`records.size` at each initial region fetch, the `records.size` at each
pagination fetch, and the names of the regions actually searched. -/
structure ASt where
  records : List PlaceRec
  startTrace : List Nat
  pageTrace : List Nat
  searched : List String
deriving Repr

/-- Initial collection state. -/
def aInit : ASt := { records := [], startTrace := [], pageTrace := [], searched := [] }

/-- The region loop of `main`: stop when `records.size >= 100`; otherwise
issue the initial text search — which is NOT wrapped in a region-local
`try`, so a `REQUEST_DENIED` throw propagates out of the loop (first
component `some msg`) — then fold the page and paginate. -/
def collectRegions : List RegionFeed → ASt → Option String × ASt
  | [], st => (none, st)
  | loc :: rest, st =>
    if 100 ≤ st.records.length then (none, st)
    else
      let st1 : ASt :=
        { st with startTrace := st.startTrace ++ [st.records.length],
                  searched := st.searched ++ [loc.name] }
      if loc.first.denied then (some "Google request denied", st1)
      else
        let recs1 := addPage st1.records loc.first.results
        let out := paginate loc.first.next_page_token loc.nexts 0 recs1
        collectRegions rest
          { records := out.1, startTrace := st1.startTrace,
            pageTrace := st1.pageTrace ++ out.2, searched := st1.searched }

/-- The fields requested from the details endpoint. -/
structure PlaceDetails where
  name : Option String
  formatted_address : Option String
  formatted_phone_number : Option String
  website : Option String
deriving Repr, DecidableEq

/-- The place-details world for one listing: the outcome of
`pRetry(() => getPlaceDetails(place_id), { retries: 2 })` (error when all
three attempts reject, otherwise the details object or `null` for a
non-`OK` status), plus the HTTP world seen by `extractEmailFromWebsite`. -/
structure PlaceWorld where
  detailsOutcome : Except String (Option PlaceDetails)
  emailFetch : String → Except String APage

/-- A record of the final `details` array. -/
structure FinalRec where
  place_id : String
  name : Option String
  address : Option String
  phone : Option String
  website : Option String
  email : Option String
deriving Repr, DecidableEq

/-- The `pMap` callback for one `place_id`.  On a successful details fetch
it merges details over the basic record.  If the fetch rejects, the
`catch` block runs — but that block reads `basic.name`, and `basic` is a
`const` declared inside the `try` block, hence out of scope in the
handler: evaluating it throws `ReferenceError`, which escapes the callback
instead of returning the degraded record. -/
def processPlace (records : List PlaceRec) (w : PlaceWorld) (place_id : String) :
    Except String FinalRec :=
  match w.detailsOutcome with
  | Except.error _ => Except.error "ReferenceError: basic is not defined"
  | Except.ok pd =>
    let basic := records.find? (fun r => r.place_id = place_id)
    let website := pd.bind (fun d => d.website)
    let email := extractEmailFromWebsite website w.emailFetch
    Except.ok
      { place_id := place_id,
        name := (pd.bind (fun d => d.name)).orElse (fun _ => basic.bind (fun b => b.name)),
        address := (pd.bind (fun d => d.formatted_address)).orElse
          (fun _ => basic.bind (fun b => b.address)),
        phone := pd.bind (fun d => d.formatted_phone_number),
        website := website,
        email := email }

/-- Sequential model of `pMap(placeIds, callback, { concurrency: 3 })` with
its default `stopOnError`: the first rejected callback rejects the whole
`pMap` promise. -/
def mapProcess (records : List PlaceRec) (worlds : String → PlaceWorld) :
    List String → Except String (List FinalRec)
  | [] => Except.ok []
  | id :: ids =>
    match processPlace records (worlds id) id with
    | Except.error e => Except.error e
    | Except.ok r =>
      match mapProcess records worlds ids with
      | Except.error e => Except.error e
      | Except.ok rs => Except.ok (r :: rs)

/-- `Array.from(records.keys()).slice(0, 100)`. -/
def placeIdsOf (records : List PlaceRec) : List String :=
  (records.map (fun r => r.place_id)).take 100

/-- `main()` of the API script.  The collection error or a rejected `pMap`
both land in the single outer `catch`, which only logs: in that case no
output file is written (first component `none`).  On success the JSON/CSV
files receive the `details` array. -/
def apiMain (regions : List RegionFeed) (worlds : String → PlaceWorld) :
    Option (List FinalRec) × ASt :=
  match collectRegions regions aInit with
  | (some _, st) => (none, st)
  | (none, st) =>
    match mapProcess st.records worlds (placeIdsOf st.records) with
    | Except.error _ => (none, st)
    | Except.ok details => (some details, st)

example :
    addPage [] [⟨"A", some "n1", some "a1"⟩, ⟨"B", some "n2", none⟩, ⟨"A", some "n3", some "a3"⟩] =
      [⟨"A", some "n1", some "a1"⟩, ⟨"B", some "n2", none⟩] := by decide

/- ============ Browser pipeline (UK Reiki script) ============ -/

/-- A parsed listing container (`parent`) of the Reiki results page,
together with the listing-local worlds: the inline website link if the
container has one, the value `scrapeListingDetails` would return when the
details page must be visited (that function catches its own errors and
returns `""`), and the value `scrapeWebsiteForEmail` would return for the
resolved website (that function never throws). -/
structure RCard where
  googleUrl : String
  practitionerName : String
  address : String
  phone : String
  inlineWebsite : Option String
  detailsWebsite : String
  emailResult : Option String
deriving Repr, DecidableEq

/-- A row pushed onto `results` by the Reiki script. -/
structure RRecord where
  index : Nat
  practitionerName : String
  address : String
  phone : String
  email : Option String
  website : String
  googleUrl : String
deriving Repr, DecidableEq

/-- Running state of the Reiki scraper: the shared `results` array, the
`index` counter (starting at 1) and, for each navigation or HTTP fetch
issued, the value of `results.length` at the moment it was issued. -/
structure RSt where
  results : List RRecord
  idx : Nat
  trace : List Nat
deriving Repr

/-- The per-listing loop `for (const parent of parents)`: resolve the
website (navigating to the details page when no inline link exists — one
fetch), fetch the email when a website was found (one fetch), push the
record, and break once `results.length >= 100`. -/
def processCards : List RCard → RSt → RSt
  | [], st => st
  | c :: cs, st =>
    let sz := st.results.length
    let website := match c.inlineWebsite with
      | some w => w
      | none => c.detailsWebsite
    let tr1 := match c.inlineWebsite with
      | some _ => st.trace
      | none => st.trace ++ [sz]
    let tr2 := if website = "" then tr1 else tr1 ++ [sz]
    let email : Option String := if website = "" then some "" else c.emailResult
    let rec0 : RRecord :=
      { index := st.idx, practitionerName := c.practitionerName, address := c.address,
        phone := c.phone, email := email, website := website, googleUrl := c.googleUrl }
    let st1 : RSt := { results := st.results ++ [rec0], idx := st.idx + 1, trace := tr2 }
    if 100 ≤ st1.results.length then st1 else processCards cs st1

/-- One country's world: the outcome of each navigate-and-scroll attempt
(an error models a thrown navigation/scroll/parse failure; success yields
the parsed listing containers). -/
structure CountryFeed where
  name : String
  attempts : List (Except String (List RCard))

/-- The retry loop `while (attempt < 2 && !countrySuccess && results.length < 100)`:
each attempt issues the search navigation (one fetch); a failure is caught
and retried, a success processes the parsed cards and ends the loop. -/
def countryAttempts : List (Except String (List RCard)) → Nat → RSt → RSt
  | _, 0, st => st
  | atts, n + 1, st =>
    if 100 ≤ st.results.length then st
    else
      match atts with
      | [] => st
      | att :: rest =>
        let st1 : RSt := { st with trace := st.trace ++ [st.results.length] }
        match att with
        | Except.error _ => countryAttempts rest n st1
        | Except.ok cards => processCards cards st1

/-- One particular schedule of the staggered `Promise.all` over the country
tasks: the sequential one, countries in configured order, each with at most
2 attempts.  The real program runs the tasks concurrently over the shared
`results` array, which matters for the cap (the push precedes the
post-delay cap check): the interleaved semantics is modelled separately by
`rScheduled` below, and under concurrent schedules the 100 cap can be
breached.  This sequential schedule is used where the schedule is
irrelevant: the absence of any identifier check (deduplication). -/
def scrapeReikiModel (feeds : List CountryFeed) : RSt :=
  feeds.foldl (fun st f => countryAttempts f.attempts 2 st)
    { results := [], idx := 1, trace := [] }

/- ============ Browser pipeline (Hungary dentists script) ============ -/

/-- A parsed listing container of the Hungary script.  The website comes
only from the inline `a[data-value="Website"]` anchor (`|| ""`); the
axios fetch outcome for that website is the listing-local world. -/
structure HCard where
  googleUrl : String
  clinicName : String
  address : String
  phone : String
  website : String
  emailHtml : Except String String
deriving Repr

/-- A row pushed onto `results` by the Hungary script (the `dentistName`
column is always the empty string). -/
structure HRecord where
  index : Nat
  clinicName : String
  dentistName : String
  address : String
  phone : String
  email : Option String
  website : String
  googleUrl : String
deriving Repr, DecidableEq

/-- Running state of the Hungary scraper, with the same fetch trace
convention as the Reiki model (cap 500). -/
structure HSt where
  results : List HRecord
  idx : Nat
  trace : List Nat
deriving Repr

/-- The per-listing loop of the Hungary script: fetch the email when the
inline website is nonempty (one fetch), push, break at 500 records. -/
def hProcessCards : List HCard → HSt → HSt
  | [], st => st
  | c :: cs, st =>
    let sz := st.results.length
    let tr1 := if c.website = "" then st.trace else st.trace ++ [sz]
    let email : Option String :=
      if c.website = "" then some "" else scrapeWebsiteForEmailHU c.website c.emailHtml
    let rec0 : HRecord :=
      { index := st.idx, clinicName := c.clinicName, dentistName := "",
        address := c.address, phone := c.phone, email := email,
        website := c.website, googleUrl := c.googleUrl }
    let st1 : HSt := { results := st.results ++ [rec0], idx := st.idx + 1, trace := tr1 }
    if 500 ≤ st1.results.length then st1 else hProcessCards cs st1

/-- One city's world, as for countries. -/
structure CityFeed where
  name : String
  attempts : List (Except String (List HCard))

/-- The retry loop `while (attempt < 2 && !citySuccess)` of the Hungary
script: failures are caught and retried (`Skipping ... after 2 failed
attempts`); after each iteration `if (results.length >= 500) break`. -/
def hCityAttempts : List (Except String (List HCard)) → Nat → HSt → HSt
  | _, 0, st => st
  | atts, n + 1, st =>
    match atts with
    | [] => st
    | att :: rest =>
      let st1 : HSt := { st with trace := st.trace ++ [st.results.length] }
      match att with
      | Except.ok cards => hProcessCards cards st1
      | Except.error _ =>
        if 500 ≤ st1.results.length then st1 else hCityAttempts rest n st1

/-- The city loop of the Hungary script, with its
`if (results.length >= 500) break` between cities. -/
def hCities : List CityFeed → HSt → HSt
  | [], st => st
  | c :: cs, st =>
    let st1 := hCityAttempts c.attempts 2 st
    if 500 ≤ st1.results.length then st1 else hCities cs st1

/-- The whole Hungary scrape (`scrapeDentists`). -/
def scrapeDentistsModel (feeds : List CityFeed) : HSt :=
  hCities feeds { results := [], idx := 1, trace := [] }

/- ============ Entry points and exit codes ============ -/

/-- The Reiki script's `scrapeReikiPractitioners` as seen by the entry
IIFE: `puppeteerExtra.launch` may throw (a setup failure); after a
successful launch every per-country error is swallowed inside the country
tasks, so the function resolves with the collected results. -/
def scrapeReikiRun (launch : Except String Unit) (feeds : List CountryFeed) :
    Except String (List RRecord) :=
  match launch with
  | Except.error e => Except.error e
  | Except.ok _ => Except.ok (scrapeReikiModel feeds).results

/-- The Reiki entry IIFE: `process.exit(0)` after a successful scrape and
CSV write, `process.exit(1)` from the `catch`, which receives both launch
failures and `csvWriter.writeRecords` failures. -/
def reikiExit (launch : Except String Unit) (feeds : List CountryFeed)
    (write : List RRecord → Except String Unit) : Nat :=
  match scrapeReikiRun launch feeds with
  | Except.error _ => 1
  | Except.ok data =>
    match write data with
    | Except.error _ => 1
    | Except.ok _ => 0

/-- The API script's module-level credential check
(`if (!API_KEY) throw new Error('Set GOOGLE_API_KEY in .env')`) followed by
`main()`: `main` wraps its whole body in `try { ... } catch { console.error }`
and never calls `process.exit`, so once the key is present the process
always exits 0, whatever `main` did. -/
def apiProcessRun (key : Option String) (regions : List RegionFeed)
    (worlds : String → PlaceWorld) : Except String Nat :=
  match key with
  | none => Except.error "Set GOOGLE_API_KEY in .env"
  | some _ =>
    let _ := apiMain regions worlds
    Except.ok 0

/-- Node's exit status: an uncaught module-level throw exits nonzero (1),
otherwise the drained event loop exits with the recorded status. -/
def nodeExit (run : Except String Nat) : Nat :=
  match run with
  | Except.error _ => 1
  | Except.ok n => n

/- ============ CSV export (API script) and a standard CSV parser ============ -/

/-- The API script's quote doubling `.replace(/"/g, '""')`. -/
def escQuotes : List Char → List Char
  | [] => []
  | c :: rest => if c = '"' then '"' :: '"' :: escQuotes rest else c :: escQuotes rest

/-- One exported CSV cell: `"${(v || '').replace(/"/g, '""')}"`. -/
def renderField (s : String) : List Char := '"' :: (escQuotes s.data ++ ['"'])

/-- `Array.prototype.join(sep)` on character lists. -/
def sepJoin (sep : Char) : List (List Char) → List Char
  | [] => []
  | [x] => x
  | x :: y :: xs => x ++ sep :: sepJoin sep (y :: xs)

/-- One exported CSV row: the six quoted cells joined with commas. -/
def renderRow (fields : List String) : List Char :=
  sepJoin ',' (fields.map renderField)

/-- The header row `['place_id', 'name', 'address', 'phone', 'website', 'email'].join(',')`. -/
def csvHeader : List Char := "place_id,name,address,phone,website,email".data

/-- The field names of the header row, as a parsed CSV row. -/
def csvHeaderFields : List String :=
  ["place_id", "name", "address", "phone", "website", "email"]

/-- The string values a final record is exported with (`d.f || ''`). -/
def recFields (d : FinalRec) : List String :=
  [d.place_id, d.name.getD "", d.address.getD "", d.phone.getD "",
   d.website.getD "", d.email.getD ""]

/-- The CSV text written to disk: header and rows joined with `'\n'`
(no trailing newline). -/
def csvOfDetails (details : List FinalRec) : String :=
  String.mk (sepJoin '\n' (csvHeader :: details.map (fun d => renderRow (recFields d))))

/-- States of a standard CSV reader: at the start of a cell, inside a bare
cell, inside a quoted cell, or just after a quote character inside a quoted
cell (which either escapes a doubled quote or closes the cell). -/
inductive CsvMode where
  | start
  | bare
  | inQ
  | quoteSeen
deriving Repr, DecidableEq

/-- A standard CSV reader: one character at a time, tracking the current
cell, the current row, and emitting completed rows.  Doubled quotes inside
a quoted cell decode to a literal quote; a quote followed by a separator
closes the cell. -/
def csvRun : List Char → CsvMode → List Char → List String → List (List String)
  | [], _, field, row => [row ++ [String.mk field]]
  | c :: rest, CsvMode.start, field, row =>
    if c = '"' then csvRun rest CsvMode.inQ field row
    else if c = ',' then csvRun rest CsvMode.start [] (row ++ [String.mk field])
    else if c = '\n' then (row ++ [String.mk field]) :: csvRun rest CsvMode.start [] []
    else csvRun rest CsvMode.bare (field ++ [c]) row
  | c :: rest, CsvMode.bare, field, row =>
    if c = ',' then csvRun rest CsvMode.start [] (row ++ [String.mk field])
    else if c = '\n' then (row ++ [String.mk field]) :: csvRun rest CsvMode.start [] []
    else csvRun rest CsvMode.bare (field ++ [c]) row
  | c :: rest, CsvMode.inQ, field, row =>
    if c = '"' then csvRun rest CsvMode.quoteSeen field row
    else csvRun rest CsvMode.inQ (field ++ [c]) row
  | c :: rest, CsvMode.quoteSeen, field, row =>
    if c = '"' then csvRun rest CsvMode.inQ (field ++ ['"']) row
    else if c = ',' then csvRun rest CsvMode.start [] (row ++ [String.mk field])
    else if c = '\n' then (row ++ [String.mk field]) :: csvRun rest CsvMode.start [] []
    else csvRun rest CsvMode.bare (field ++ [c]) row

/-- Parse a CSV document into its rows of cells. -/
def parseCSV (s : String) : List (List String) :=
  csvRun s.data CsvMode.start [] []

example :
    parseCSV (csvOfDetails
      [{ place_id := "p1", name := some "Dr \"Q\", DDS", address := some "1, Fő u.\nBp",
         phone := none, website := some "http://x.co", email := none }]) =
    [csvHeaderFields, ["p1", "Dr \"Q\", DDS", "1, Fő u.\nBp", "", "http://x.co", ""]] := by
  decide

/- ===================== Lemmas: deduplication (API variant) ===================== -/

theorem find?_cons_pos' {α : Type} (p : α → Bool) (a : α) (l : List α)
    (h : p a = true) : (a :: l).find? p = some a :=
  List.find?_cons_of_pos _ h

theorem find?_cons_neg' {α : Type} (p : α → Bool) (a : α) (l : List α)
    (h : p a = false) : (a :: l).find? p = l.find? p := by
  apply List.find?_cons_of_neg
  simp [h]

theorem hasId_false_find? {recs : List PlaceRec} {id : String}
    (h : hasId recs id = false) :
    recs.find? (fun r => r.place_id = id) = none := by
  have h' : (recs.any fun r => decide (r.place_id = id)) = false := h
  rw [List.find?_eq_none]
  intro x hx hpx
  have : (recs.any fun r => decide (r.place_id = id)) = true :=
    List.any_eq_true.mpr ⟨x, hx, hpx⟩
  rw [h'] at this
  exact Bool.false_ne_true this

theorem hasId_true_find? {recs : List PlaceRec} {id : String}
    (h : hasId recs id = true) :
    ∃ x, recs.find? (fun r => r.place_id = id) = some x := by
  obtain ⟨x, hx, hpx⟩ := List.any_eq_true.mp h
  have : (recs.find? (fun r => r.place_id = id)).isSome :=
    List.find?_isSome.mpr ⟨x, hx, hpx⟩
  exact Option.isSome_iff_exists.mp this

theorem addPage_nil (acc : List PlaceRec) : addPage acc [] = acc := rfl

theorem addPage_cons (acc : List PlaceRec) (r : RawPlace) (rs : List RawPlace) :
    addPage acc (r :: rs) =
      addPage (if hasId acc r.place_id then acc else acc ++ [toRec r]) rs := rfl

theorem find?_addPage (rs : List RawPlace) (acc : List PlaceRec) (id : String) :
    (addPage acc rs).find? (fun r => r.place_id = id) =
      match acc.find? (fun r => r.place_id = id) with
      | some x => some x
      | none => (rs.find? (fun r => r.place_id = id)).map toRec := by
  induction rs generalizing acc with
  | nil =>
    rw [addPage_nil]
    cases h : acc.find? (fun r => r.place_id = id) <;> simp
  | cons r rs ih =>
    rw [addPage_cons]
    by_cases hid : hasId acc r.place_id = true
    · rw [if_pos hid, ih]
      by_cases hq : r.place_id = id
      · obtain ⟨x, hx⟩ := @hasId_true_find? acc id (by rwa [hq] at hid)
        rw [hx]
      · rw [find?_cons_neg' _ r rs (by simp [hq])]
    · rw [if_neg hid, ih]
      have hidf : hasId acc r.place_id = false := Bool.not_eq_true _ ▸ hid
      rw [List.find?_append]
      by_cases hq : r.place_id = id
      · have hfa : acc.find? (fun x => x.place_id = id) = none := by
          apply hasId_false_find?
          rwa [← hq]
        have hsingle : [toRec r].find? (fun x => x.place_id = id) = some (toRec r) :=
          find?_cons_pos' _ _ _ (by simp [toRec, hq])
        rw [hfa, hsingle]
        rw [find?_cons_pos' _ r rs (by simp [hq])]
        rfl
      · have hsingle : [toRec r].find? (fun x => x.place_id = id) = none :=
          find?_cons_neg' _ _ _ (by simp [toRec, hq])
        rw [hsingle]
        rw [find?_cons_neg' _ r rs (by simp [hq])]
        cases h : acc.find? (fun x => x.place_id = id) <;> simp

theorem nodup_addPage (rs : List RawPlace) (acc : List PlaceRec)
    (h : (acc.map (fun r => r.place_id)).Nodup) :
    ((addPage acc rs).map (fun r => r.place_id)).Nodup := by
  induction rs generalizing acc with
  | nil => rwa [addPage_nil]
  | cons r rs ih =>
    rw [addPage_cons]
    by_cases hid : hasId acc r.place_id = true
    · rw [if_pos hid]; exact ih acc h
    · rw [if_neg hid]
      apply ih
      have hidf : hasId acc r.place_id = false := Bool.not_eq_true _ ▸ hid
      rw [List.map_append]
      rw [List.nodup_append]
      refine ⟨h, List.nodup_singleton _, ?_⟩
      intro a ha hb
      simp only [List.map_cons, List.map_nil, List.mem_singleton, toRec] at hb
      subst hb
      obtain ⟨x, hx, hpx⟩ := List.mem_map.mp ha
      have : (acc.any fun q => decide (q.place_id = r.place_id)) = true :=
        List.any_eq_true.mpr ⟨x, hx, by simp [hpx]⟩
      have h2 : (acc.any fun q => decide (q.place_id = r.place_id)) = false := hidf
      rw [h2] at this
      exact Bool.false_ne_true this

/- ===================== Claim C1 ===================== -/

/-- A country feed whose single (successful) attempt yields two listing
containers with the same identifier `https://maps/place/A`. -/
def c1DupFeed : List CountryFeed :=
  [{ name := "England",
     attempts := [Except.ok
       [{ googleUrl := "https://maps/place/A", practitionerName := "Alice Reiki",
          address := "1 High St", phone := "0100", inlineWebsite := some "",
          detailsWebsite := "", emailResult := none },
        { googleUrl := "https://maps/place/A", practitionerName := "Alice R.",
          address := "1 High Street", phone := "0100", inlineWebsite := some "",
          detailsWebsite := "", emailResult := none }]] }]

/-- C1, counterexample: the browser-based Reiki pipeline performs no
deduplication — a source sequence with a duplicated identifier produces a
`results` array with two entries for that identifier, so the result set
does not contain exactly one entry per distinct identifier. -/
theorem C1_counterexample :
    ((scrapeReikiModel c1DupFeed).results.map (fun r => r.googleUrl) =
      ["https://maps/place/A", "https://maps/place/A"]) ∧
    ¬ ((scrapeReikiModel c1DupFeed).results.map (fun r => r.googleUrl)).Nodup := by
  constructor
  · rfl
  · decide

/-- C1, amended: in the API-backed variant the `records` map holds exactly
one entry per distinct `place_id` — its identifier list is duplicate-free,
and the entry stored for an identifier is built from the first raw listing
carrying it (first-seen name and `formatted_address`); the browser-backed
variants push every yielded listing and do not deduplicate. -/
theorem C1_amended (rs : List RawPlace) :
    ((addPage [] rs).map (fun r => r.place_id)).Nodup ∧
    ∀ id : String,
      (addPage [] rs).find? (fun r => r.place_id = id) =
        (rs.find? (fun r => r.place_id = id)).map toRec := by
  constructor
  · exact nodup_addPage rs [] (by simp)
  · intro id
    rw [find?_addPage]
    rfl

/- ===================== Lemmas: result caps and fetch traces ===================== -/

theorem trace_push {tr : List Nat} {cap : Nat} (htr : ∀ x ∈ tr, x < cap) {s : Nat}
    (hs : s < cap) : ∀ x ∈ tr ++ [s], x < cap := by
  intro x hx
  rcases List.mem_append.mp hx with h | h
  · exact htr x h
  · simp only [List.mem_singleton] at h
    omega

theorem hCapStep (cs : List HCard)
    (ih : ∀ st : HSt, st.results.length < 500 → (∀ x ∈ st.trace, x < 500) →
      (hProcessCards cs st).results.length ≤ 500 ∧
      ∀ x ∈ (hProcessCards cs st).trace, x < 500)
    (res : List HRecord) (i : Nat) (tr : List Nat)
    (hlen : res.length ≤ 500) (htr : ∀ x ∈ tr, x < 500) :
    (if 500 ≤ res.length then ({ results := res, idx := i, trace := tr } : HSt)
      else hProcessCards cs { results := res, idx := i, trace := tr }).results.length ≤ 500 ∧
    ∀ x ∈ (if 500 ≤ res.length then ({ results := res, idx := i, trace := tr } : HSt)
      else hProcessCards cs { results := res, idx := i, trace := tr }).trace, x < 500 := by
  by_cases h : 500 ≤ res.length
  · rw [if_pos h]
    exact ⟨hlen, htr⟩
  · rw [if_neg h]
    exact ih _ (Nat.lt_of_not_le h) htr

theorem hProcessCards_inv : ∀ (cs : List HCard) (st : HSt),
    st.results.length < 500 → (∀ x ∈ st.trace, x < 500) →
    (hProcessCards cs st).results.length ≤ 500 ∧
    ∀ x ∈ (hProcessCards cs st).trace, x < 500 := by
  intro cs
  induction cs with
  | nil =>
    intro st h1 h2
    exact ⟨Nat.le_of_lt h1, h2⟩
  | cons c cs ih =>
    intro st h1 h2
    by_cases hw : c.website = ""
    · simp only [hProcessCards, if_pos hw]
      refine hCapStep cs ih _ _ _ ?_ ?_
      · simp only [List.length_append, List.length_singleton]
        omega
      · exact h2
    · simp only [hProcessCards, if_neg hw]
      refine hCapStep cs ih _ _ _ ?_ ?_
      · simp only [List.length_append, List.length_singleton]
        omega
      · exact trace_push h2 h1

theorem hCityAttempts_inv : ∀ (n : Nat) (atts : List (Except String (List HCard))) (st : HSt),
    st.results.length < 500 → (∀ x ∈ st.trace, x < 500) →
    (hCityAttempts atts n st).results.length ≤ 500 ∧
    ∀ x ∈ (hCityAttempts atts n st).trace, x < 500 := by
  intro n
  induction n with
  | zero =>
    intro atts st h1 h2
    simp only [hCityAttempts]
    exact ⟨Nat.le_of_lt h1, h2⟩
  | succ n ih =>
    intro atts st h1 h2
    cases atts with
    | nil =>
      simp only [hCityAttempts]
      exact ⟨Nat.le_of_lt h1, h2⟩
    | cons att rest =>
      cases att with
      | ok cards =>
        simp only [hCityAttempts]
        exact hProcessCards_inv cards _ h1 (trace_push h2 h1)
      | error e =>
        simp only [hCityAttempts]
        rw [if_neg (by simpa using Nat.not_le_of_lt h1)]
        exact ih rest _ h1 (trace_push h2 h1)

theorem hCities_inv : ∀ (feeds : List CityFeed) (st : HSt),
    st.results.length < 500 → (∀ x ∈ st.trace, x < 500) →
    (hCities feeds st).results.length ≤ 500 ∧
    ∀ x ∈ (hCities feeds st).trace, x < 500 := by
  intro feeds
  induction feeds with
  | nil =>
    intro st h1 h2
    exact ⟨Nat.le_of_lt h1, h2⟩
  | cons c cs ih =>
    intro st h1 h2
    simp only [hCities]
    have h3 := hCityAttempts_inv 2 c.attempts st h1 h2
    by_cases hcap : 500 ≤ (hCityAttempts c.attempts 2 st).results.length
    · rw [if_pos hcap]
      exact h3
    · rw [if_neg hcap]
      exact ih _ (Nat.lt_of_not_le hcap) h3.2

theorem paginate_le2 : ∀ (nexts : List SearchPage) (token : Option String)
    (i : Nat) (recs : List PlaceRec),
    (paginate token nexts i recs).2.length ≤ 2 - i := by
  intro nexts
  induction nexts with
  | nil =>
    intro token i recs
    cases token with
    | none => simp [paginate]
    | some t =>
      by_cases h : 2 ≤ i
      · simp [paginate, if_pos h]
      · simp [paginate, if_neg h]
  | cons resp rest ih =>
    intro token i recs
    cases token with
    | none => simp [paginate]
    | some t =>
      by_cases h : 2 ≤ i
      · simp [paginate, if_pos h]
      · by_cases hd : resp.denied
        · simp only [paginate, if_neg h, hd, if_pos, ite_true, List.length_singleton]
          omega
        · simp only [paginate, if_neg h, if_neg hd, List.length_cons]
          have := ih resp.next_page_token (i + 1) (addPage recs resp.results)
          omega

theorem collect_start_inv : ∀ (regions : List RegionFeed) (st : ASt),
    (∀ x ∈ st.startTrace, x < 100) →
    ∀ x ∈ (collectRegions regions st).2.startTrace, x < 100 := by
  intro regions
  induction regions with
  | nil =>
    intro st h1
    simpa [collectRegions] using h1
  | cons loc rest ih =>
    intro st h1
    by_cases hcap : 100 ≤ st.records.length
    · simp only [collectRegions, if_pos hcap]
      exact h1
    · by_cases hd : loc.first.denied = true
      · simp only [collectRegions, if_neg hcap, if_pos hd]
        exact trace_push h1 (Nat.lt_of_not_le hcap)
      · simp only [collectRegions, if_neg hcap, if_neg hd]
        apply ih
        exact trace_push h1 (Nat.lt_of_not_le hcap)

theorem mapProcess_length (records : List PlaceRec) (worlds : String → PlaceWorld) :
    ∀ (ids : List String) (out : List FinalRec),
    mapProcess records worlds ids = Except.ok out → out.length = ids.length := by
  intro ids
  induction ids with
  | nil =>
    intro out h
    simp only [mapProcess] at h
    cases h
    rfl
  | cons id ids ih =>
    intro out h
    simp only [mapProcess] at h
    cases hp : processPlace records (worlds id) id with
    | error e =>
      rw [hp] at h
      cases h
    | ok r =>
      rw [hp] at h
      cases hm : mapProcess records worlds ids with
      | error e =>
        rw [hm] at h
        cases h
      | ok rs =>
        rw [hm] at h
        cases h
        simp only [List.length_cons, ih rs hm]

theorem apiMain_cap (regions : List RegionFeed) (worlds : String → PlaceWorld) :
    ((apiMain regions worlds).1.getD []).length ≤ 100 := by
  unfold apiMain
  cases hc : collectRegions regions aInit with
  | mk err st =>
    cases err with
    | some e => simp
    | none =>
      dsimp only
      cases hm : mapProcess st.records worlds (placeIdsOf st.records) with
      | error e => simp
      | ok details =>
        dsimp only
        simp only [Option.getD_some]
        rw [mapProcess_length st.records worlds _ _ hm]
        unfold placeIdsOf
        simp [List.length_take_le]

/- ===================== Claim C2 ===================== -/

/-- Interleaving point of one country task inside the per-listing loop of
the Reiki scraper.  The `await`s of the loop body are the only points at
which the JavaScript event loop can run another task, so between them a
task executes atomic segments.  The body awaits (at most) the details
navigation, the e-mail fetch and the one-second delay; the cap check
`if (results.length >= 100) break` runs after the delay and continues
synchronously into the next listing's extraction and first fetch, so the
check and that fetch belong to one segment. -/
inductive RPhase where
  | beginP
  | detailWaitP
  | emailWaitP
  | delayWaitP
deriving Repr, DecidableEq

/-- One country task of the staggered `Promise.all`, reduced to its
per-listing loop: the suspension it will resume from and the listings
still to process (empty once the loop finished or the cap check broke
out).  `beginP`: about to run the loop body for the head listing from the
top.  `detailWaitP`: suspended on the details navigation.  `emailWaitP`:
suspended on the e-mail fetch.  `delayWaitP`: suspended on the one-second
delay that precedes the cap check. -/
structure RTaskSt where
  phase : RPhase
  cards : List RCard
deriving Repr

/-- The state shared by all concurrently scheduled country tasks: the
`results` array, the `index` counter, and the fetch trace (the value of
`results.length` at the moment each fetch is issued). -/
structure RShared where
  results : List RRecord
  idx : Nat
  trace : List Nat
deriving Repr

/-- `results.push` for the head listing, with the website and e-mail
resolved as in the source (inline link, else details result; e-mail only
fetched for a nonempty website). -/
def rPush (sh : RShared) (c : RCard) : RShared :=
  let website := match c.inlineWebsite with
    | some w => w
    | none => c.detailsWebsite
  let email : Option String := if website = "" then some "" else c.emailResult
  let rec0 : RRecord :=
    { index := sh.idx, practitionerName := c.practitionerName, address := c.address,
      phone := c.phone, email := email, website := website, googleUrl := c.googleUrl }
  { sh with results := sh.results ++ [rec0], idx := sh.idx + 1 }

/-- The synchronous start of the loop body for the head listing: extract
the fields, then either issue the details navigation (no inline link;
suspend on it), issue the e-mail fetch (inline nonempty website; suspend
on it), or — with an inline empty website — push at once and suspend on
the delay.  Each issued fetch records `results.length` at that moment. -/
def rBegin (sh : RShared) (cards : List RCard) : RShared × RTaskSt :=
  match cards with
  | [] => (sh, { phase := RPhase.beginP, cards := [] })
  | c :: _ =>
    match c.inlineWebsite with
    | none =>
      ({ sh with trace := sh.trace ++ [sh.results.length] },
       { phase := RPhase.detailWaitP, cards := cards })
    | some w =>
      if w = "" then (rPush sh c, { phase := RPhase.delayWaitP, cards := cards })
      else ({ sh with trace := sh.trace ++ [sh.results.length] },
            { phase := RPhase.emailWaitP, cards := cards })

/-- One atomic segment of one task.  Resuming from the details navigation
either issues the e-mail fetch (nonempty website; suspend again) or pushes
at once; resuming from the e-mail fetch pushes; resuming from the delay
runs the cap check and, when it passes, continues synchronously into the
next listing's `rBegin`. -/
def rTaskStep (sh : RShared) (t : RTaskSt) : RShared × RTaskSt :=
  match t.cards with
  | [] => (sh, t)
  | c :: rest =>
    match t.phase with
    | RPhase.beginP => rBegin sh t.cards
    | RPhase.detailWaitP =>
      if c.detailsWebsite = "" then (rPush sh c, { t with phase := RPhase.delayWaitP })
      else ({ sh with trace := sh.trace ++ [sh.results.length] },
            { t with phase := RPhase.emailWaitP })
    | RPhase.emailWaitP => (rPush sh c, { t with phase := RPhase.delayWaitP })
    | RPhase.delayWaitP =>
      if 100 ≤ sh.results.length then (sh, { phase := RPhase.beginP, cards := [] })
      else rBegin sh rest

/-- Run one scheduler step: the chosen task executes its next atomic
segment against the shared state. -/
def rStep (st : RShared × List RTaskSt) (i : Nat) : RShared × List RTaskSt :=
  match st.2.get? i with
  | none => st
  | some t =>
    let out := rTaskStep st.1 t
    (out.1, st.2.set i out.2)

/-- Execute the concurrently running country tasks under a given schedule
(the order in which the event loop resumes their pending continuations). -/
def rScheduled (schedule : List Nat) (tasks : List RTaskSt) : RShared × List RTaskSt :=
  schedule.foldl rStep ({ results := [], idx := 1, trace := [] }, tasks)

/-- One hundred distinct raw places ("0" .. "99"), as a single text-search
response page carrying a continuation token. -/
def c2Raws : List RawPlace :=
  (List.range 100).map (fun i => { place_id := toString i, name := none, formatted_address := none })

/-- A region whose very first response already contains 100 unique results
plus a pagination token, followed by two further token pages. -/
def c2Region : RegionFeed :=
  { name := "Amsterdam",
    first := { denied := false, results := c2Raws, next_page_token := some "tok1" },
    nexts := [{ denied := false, results := [], next_page_token := some "tok2" },
              { denied := false, results := [], next_page_token := none }] }

/-- A listing container with an inline website, so that processing it
issues one e-mail fetch. -/
def c2ConcCard (i : Nat) : RCard :=
  { googleUrl := "https://maps/place/c" ++ toString i, practitionerName := toString i,
    address := "", phone := "", inlineWebsite := some "http://w.co",
    detailsWebsite := "", emailResult := none }

/-- A listing container without an inline website link, so that processing
it issues the details navigation and then, on its resolution, the e-mail
fetch. -/
def c2ConcDetailCard : RCard :=
  { googleUrl := "https://maps/place/d", practitionerName := "d", address := "",
    phone := "", inlineWebsite := none, detailsWebsite := "http://d.co",
    emailResult := none }

/-- Two concurrently scheduled country tasks: one with 99 inline-website
listings followed by a details-page listing, one with a single listing. -/
def c2ConcTasks : List RTaskSt :=
  [{ phase := RPhase.beginP, cards := (List.range 99).map c2ConcCard ++ [c2ConcDetailCard] },
   { phase := RPhase.beginP, cards := [c2ConcCard 1000] }]

/-- A schedule of the two tasks: task 0 pushes 98 records alone (196
segments); task 1 then starts while task 0 awaits its delay; task 1's push
resolves while task 0 awaits the details navigation of its last listing,
whose e-mail fetch is therefore issued at 100 records, and both tasks'
final pushes land before either cap check runs. -/
def c2ConcSchedule : List Nat :=
  List.replicate 196 0 ++ [1, 0, 0, 0, 1, 0, 0, 0, 1]

set_option maxRecDepth 40000 in
/-- C2, counterexample.  API variant: the cap is only checked between
regions, so after the first fetch fills the record map to the cap (100)
the pipeline still issues two pagination (listing) fetches for the region
in progress, each recorded with the record count (100) at the moment it
was issued.  Reiki variant: the cap check runs only after each task's own
push over the shared `results` array, so under the program's concurrent
schedule the array reaches 101 records and a fetch is issued at record
count 100. -/
theorem C2_counterexample :
    (collectRegions [c2Region] aInit).2.records.length = 100 ∧
    (collectRegions [c2Region] aInit).2.pageTrace = [100, 100] ∧
    (rScheduled c2ConcSchedule c2ConcTasks).1.results.length = 101 ∧
    100 ∈ (rScheduled c2ConcSchedule c2ConcTasks).1.trace := by
  refine ⟨rfl, rfl, rfl, ?_⟩
  decide

set_option maxRecDepth 40000 in
/-- C2, amended: the Hungary variant's result set never exceeds its cap of
500 and all of its fetches are issued below that cap; the API variant's
exported result set never exceeds 100, no region is started at or above
the cap, and at most two pagination fetches are issued per region — though
those may still be issued after the cap is reached mid-region; the Reiki
variant checks its cap of 100 only after each push over the `results`
array shared by its concurrently scheduled country tasks, so there are
schedules under which the result set exceeds 100 and a fetch is issued at
or above the cap. -/
theorem C2_amended (hfeeds : List CityFeed)
    (regions : List RegionFeed) (worlds : String → PlaceWorld)
    (token : Option String) (nexts : List SearchPage) (recs : List PlaceRec) :
    (scrapeDentistsModel hfeeds).results.length ≤ 500 ∧
    (∀ x ∈ (scrapeDentistsModel hfeeds).trace, x < 500) ∧
    ((apiMain regions worlds).1.getD []).length ≤ 100 ∧
    (∀ x ∈ (collectRegions regions aInit).2.startTrace, x < 100) ∧
    (paginate token nexts 0 recs).2.length ≤ 2 ∧
    (∃ (schedule : List Nat) (tasks : List RTaskSt),
      100 < (rScheduled schedule tasks).1.results.length ∧
      ∃ s ∈ (rScheduled schedule tasks).1.trace, 100 ≤ s) := by
  have hh := hCities_inv hfeeds
    { results := [], idx := 1, trace := [] } (by simp) (by simp)
  refine ⟨hh.1, hh.2, apiMain_cap regions worlds, ?_, paginate_le2 nexts token 0 recs, ?_⟩
  · exact collect_start_inv regions aInit (by simp [aInit])
  · exact ⟨c2ConcSchedule, c2ConcTasks, by decide, 100, by decide, Nat.le_refl 100⟩

/- ===================== Claim C3 ===================== -/

/-- A single healthy region yielding one listing. -/
def c3Region : RegionFeed :=
  { name := "Amsterdam",
    first := { denied := false,
               results := [{ place_id := "p1", name := some "Smile Clinic",
                             formatted_address := some "Damrak 1" }],
               next_page_token := none },
    nexts := [] }

/-- A world in which the details fetch for every place keeps failing
(all three `pRetry` attempts reject). -/
def c3Worlds : String → PlaceWorld :=
  fun _ => { detailsOutcome := Except.error "FetchError: network down",
             emailFetch := fun _ => Except.error "unreachable" }

/-- C3: evaluation of the code at the failing input.  When the details
fetch for place `p1` fails persistently, the `catch` block of the `pMap`
callback dereferences the out-of-scope `basic`, so a `ReferenceError`
escapes the per-listing scope, `pMap` rejects, `main`'s outer `catch`
swallows everything and no output is produced — instead of the degraded
record the claim (and the handler's own intent) calls for. -/
theorem C3_code_bug :
    processPlace [{ place_id := "p1", name := some "Smile Clinic", address := some "Damrak 1" }]
        (c3Worlds "p1") "p1" = Except.error "ReferenceError: basic is not defined" ∧
    (apiMain [c3Region] c3Worlds).1 = none := by
  constructor
  · rfl
  · rfl

/- ===================== Claim C4 ===================== -/

/-- Two regions: the first one's initial search response is
`REQUEST_DENIED`, the second is healthy. -/
def c4Regions : List RegionFeed :=
  [{ name := "Amsterdam",
     first := { denied := true, results := [], next_page_token := none },
     nexts := [] },
   { name := "Rotterdam",
     first := { denied := false,
                results := [{ place_id := "r1", name := some "Tand", formatted_address := none }],
                next_page_token := none },
     nexts := [] }]

/-- A world with no failures in the details stage. -/
def c4Worlds : String → PlaceWorld :=
  fun _ => { detailsOutcome := Except.ok none, emailFetch := fun _ => Except.error "none" }

/-- C4, counterexample: a `REQUEST_DENIED` response on the first search
call of the first region does not merely fail that region — the thrown
error escapes the region loop, the second region is never searched
(`searched = ["Amsterdam"]`), and the run produces no output at all,
contrary to the claim that the run continues to the next region. -/
theorem C4_counterexample :
    (apiMain c4Regions c4Worlds).2.searched = ["Amsterdam"] ∧
    (apiMain c4Regions c4Worlds).1 = none := by
  constructor
  · rfl
  · rfl

/-- C4, amended: a `REQUEST_DENIED` response on the first search call of a
region is propagated without any retry — exactly one fetch is issued, at
record count 0 — and it aborts the whole collection loop: no further
region is searched, no pagination is attempted, and `main` produces no
output files. -/
theorem C4_amended (name : String) (first : SearchPage) (nexts : List SearchPage)
    (rest : List RegionFeed) (worlds : String → PlaceWorld)
    (hd : first.denied = true) :
    (collectRegions ({ name := name, first := first, nexts := nexts } :: rest) aInit).1.isSome ∧
    (collectRegions ({ name := name, first := first, nexts := nexts } :: rest) aInit).2.searched
      = [name] ∧
    (collectRegions ({ name := name, first := first, nexts := nexts } :: rest) aInit).2.startTrace
      = [0] ∧
    (collectRegions ({ name := name, first := first, nexts := nexts } :: rest) aInit).2.pageTrace
      = [] ∧
    (apiMain ({ name := name, first := first, nexts := nexts } :: rest) worlds).1 = none := by
  have hcoll :
      collectRegions ({ name := name, first := first, nexts := nexts } :: rest) aInit =
        (some "Google request denied",
          { records := [], startTrace := [0], pageTrace := [], searched := [name] }) := by
    simp only [collectRegions, aInit, hd]
    rfl
  refine ⟨?_, ?_, ?_, ?_, ?_⟩ <;> first
    | (simp only [apiMain, hcoll]; rfl)
    | simp only [apiMain, hcoll]

/-- C4, witness for the amended theorem at a concrete denied region. -/
theorem C4_amended_witness :
    (collectRegions c4Regions aInit).1.isSome ∧
    (collectRegions c4Regions aInit).2.searched = ["Amsterdam"] ∧
    (collectRegions c4Regions aInit).2.startTrace = [0] ∧
    (collectRegions c4Regions aInit).2.pageTrace = [] ∧
    (apiMain c4Regions c4Worlds).1 = none :=
  C4_amended "Amsterdam" { denied := true, results := [], next_page_token := none } []
    [{ name := "Rotterdam",
       first := { denied := false,
                  results := [{ place_id := "r1", name := some "Tand", formatted_address := none }],
                  next_page_token := none },
       nexts := [] }] c4Worlds rfl

/- ===================== Claim C5 ===================== -/

/-- C5: both extractors prefer a `mailto:` target over inline page text and
are plain functions of the page content (hence deterministic).  For the
browser variant: whenever some `mailto:` target matches the e-mail regex,
the per-path check returns the first such target, whatever the page markup
contains.  For the HTTP variant: whenever the first `mailto:` href decodes
to an e-mail-shaped target, the extractor returns it, whatever the body
contains. -/
theorem C5_mailto_preferred :
    (∀ (p : BPage) (e : String),
        p.mailtoLinks.find? emailShaped = some e → checkPage p = some e) ∧
    (∀ (u : String) (fetch : String → Except String APage) (res : APage) (mh em : String),
        u ≠ "" → fetch (normalizeUrl u) = Except.ok res → res.resOk = true →
        res.mailtoFirst = some mh → mh ≠ "" →
        decodeURIComponentM (takeBeforeQ (stripMailto mh)) = some em →
        p2Test em.data = true →
        extractEmailFromWebsite (some u) fetch = some em) := by
  constructor
  · intro p e h
    unfold checkPage
    rw [h]
  · intro u fetch res mh em hu hfetch hok hmailto hmh hdec hshape
    unfold extractEmailFromWebsite
    dsimp only
    rw [if_neg hu, hfetch]
    simp only [hok, Bool.not_true, Bool.false_eq_true, if_false, hmailto,
      if_neg hmh, hdec, if_pos hshape]

/-- C5, witness: a page carrying both a valid `mailto:` target and inline
e-mail text yields the `mailto:` value, in both variants. -/
theorem C5_mailto_preferred_witness :
    checkPage { mailtoLinks := ["info@clinic.hu"], content := "see also bob@x.co" } =
      some "info@clinic.hu" ∧
    extractEmailFromWebsite (some "clinic.hu")
      (fun _ => Except.ok { resOk := true, html := "inline a@b.co here",
                            mailtoFirst := some "mailto:boss@clinic.hu" }) =
      some "boss@clinic.hu" := by
  constructor
  · exact C5_mailto_preferred.1 _ "info@clinic.hu" (by decide)
  · exact C5_mailto_preferred.2 "clinic.hu" _ _ "mailto:boss@clinic.hu" "boss@clinic.hu"
      (by decide) rfl rfl rfl (by decide) (by decide) (by decide)

/- ===================== Claim C6 ===================== -/

/-- C6, counterexample: pages whose only e-mail-shaped string is the
placeholder `info@example.com` do not yield none in every variant.  The
HTTP API variant applies no placeholder filter to its text scan, and the
browser Reiki variant applies its filter only to the content scan — a
placeholder arriving as a `mailto:` target is returned unfiltered. -/
theorem C6_counterexample :
    extractEmailFromWebsite (some "dentist.nl")
      (fun _ => Except.ok { resOk := true, html := "contact: info@example.com",
                            mailtoFirst := none }) =
      some "info@example.com" ∧
    scrapeWebsiteForEmail "http://x.hu"
      (fun _ => Except.ok { mailtoLinks := ["info@example.com"],
                            content := "nothing else here" }) =
      some "info@example.com" := by
  constructor
  · decide
  · decide

/-- C6, amended: the placeholder exclusion is applied only to the
inline-content scan — the browser Reiki extractor drops `example.com` and
`w3.org` matches found in the page markup, and the Hungary extractor drops
`example.com` matches — while an e-mail-shaped placeholder appearing as a
`mailto:` target is returned unfiltered by the Reiki extractor, and the
HTTP API variant applies no placeholder filter at all (see the
counterexample). -/
theorem C6_amended :
    (∀ p : BPage,
        p.mailtoLinks.all (fun s => (scanEmails s).isEmpty) = true →
        (scanEmails p.content).all
          (fun e => strIncludes e "example.com" || strIncludes e "w3.org") = true →
        checkPage p = none) ∧
    (∀ (url html : String),
        (scanEmails html).all (fun e => strIncludes e "example.com") = true →
        scrapeWebsiteForEmailHU url (Except.ok html) = none) ∧
    (∀ (e content : String),
        emailShaped e = true →
        strIncludes e "example.com" = true →
        checkPage { mailtoLinks := [e], content := content } = some e) := by
  refine ⟨?_, ?_, ?_⟩
  · intro p hmail hcont
    unfold checkPage
    have h1 : p.mailtoLinks.find? emailShaped = none := by
      rw [List.find?_eq_none]
      intro s hs
      have := List.all_eq_true.mp hmail s hs
      simp [emailShaped, this]
    rw [h1]
    have h2 : (scanEmails p.content).find? reikiFilter = none := by
      rw [List.find?_eq_none]
      intro e he
      have := List.all_eq_true.mp hcont e he
      simp only [reikiFilter]
      rcases (Bool.or_eq_true _ _).mp this with h | h <;> simp [h]
    rw [h2]
  · intro url html hall
    unfold scrapeWebsiteForEmailHU
    by_cases hurl : url = ""
    · rw [if_pos hurl]
    · rw [if_neg hurl]
      dsimp only
      rw [List.find?_eq_none]
      intro e he
      have := List.all_eq_true.mp hall e he
      simp [this]
  · intro e content he _
    unfold checkPage
    rw [find?_cons_pos' emailShaped e [] he]

/-- C6, witness: concrete pages for the three amended conjuncts — the two
content-scan exclusions yield none, and a placeholder `mailto:` target is
returned by the Reiki per-path check despite the filter. -/
theorem C6_amended_witness :
    checkPage { mailtoLinks := ["not-an-address"],
                content := "mail info@example.com and root@test.w3.org" } = none ∧
    scrapeWebsiteForEmailHU "http://x.hu" (Except.ok "try info@example.com now") = none ∧
    checkPage { mailtoLinks := ["info@example.com"], content := "body" } =
      some "info@example.com" := by
  refine ⟨?_, ?_, ?_⟩
  · exact C6_amended.1 _ (by decide) (by decide)
  · exact C6_amended.2.1 "http://x.hu" _ (by decide)
  · exact C6_amended.2.2 "info@example.com" "body" (by decide) (by decide)

/- ===================== Claim C7 ===================== -/

/-- C7: the browser extractor probes exactly the fixed path list
`"", /contact, /contact-us, /about, /about-us` in order and stops at the
first path whose page yields an e-mail: with a root page yielding nothing
and a `/contact` page yielding `e`, the result is `e` (the remaining paths
are never consulted). -/
theorem C7_path_order :
    possiblePaths = ["", "/contact", "/contact-us", "/about", "/about-us"] ∧
    ∀ (url : String) (fetch : String → Except String BPage) (p0 p1 : BPage) (e : String),
      url ≠ "" →
      fetch (targetUrl url "") = Except.ok p0 → checkPage p0 = none →
      fetch (targetUrl url "/contact") = Except.ok p1 → checkPage p1 = some e →
      scrapeWebsiteForEmail url fetch = some e := by
  constructor
  · rfl
  · intro url fetch p0 p1 e hu hf0 hc0 hf1 hc1
    unfold scrapeWebsiteForEmail possiblePaths
    rw [if_neg hu]
    simp only [goPathsE, hf0, hc0, hf1, hc1]

/-- C7, witness: a concrete world with an e-mail only on the `/contact`
page. -/
theorem C7_path_order_witness :
    scrapeWebsiteForEmail "http://x.co"
      (fun s => if s = "http://x.co/contact"
        then Except.ok { mailtoLinks := [], content := "write a@b.co" }
        else Except.ok { mailtoLinks := [], content := "no mail here" }) =
      some "a@b.co" :=
  C7_path_order.2 "http://x.co" _
    { mailtoLinks := [], content := "no mail here" }
    { mailtoLinks := [], content := "write a@b.co" }
    "a@b.co" (by decide) rfl (by decide) rfl (by decide)

/- ===================== Claim C8 ===================== -/

theorem goPaths_none (url : String) (fetch : String → Except String BPage) :
    ∀ ps : List String,
    (∀ p ∈ ps, ∃ pg, fetch (targetUrl url p) = Except.ok pg ∧ checkPage pg = none) →
    goPathsE url fetch ps = Except.ok none := by
  intro ps
  induction ps with
  | nil =>
    intro _
    rfl
  | cons p ps ih =>
    intro h
    obtain ⟨pg, hf, hc⟩ := h p (List.mem_cons_self p ps)
    simp only [goPathsE, hf, hc]
    exact ih (fun q hq => h q (List.mem_cons_of_mem p hq))

/-- C8: the e-mail extractors return none — and never propagate an error to
the caller — when the website URL is empty or absent, when every probed
path yields no match, when the navigation/HTTP fetch fails, and (HTTP
variant) when the response status is not OK. -/
theorem C8_errors_recovered :
    (∀ fetch : String → Except String BPage, scrapeWebsiteForEmail "" fetch = none) ∧
    (∀ (url : String) (fetch : String → Except String BPage),
      (∀ p ∈ possiblePaths, ∃ pg, fetch (targetUrl url p) = Except.ok pg ∧ checkPage pg = none) →
      scrapeWebsiteForEmail url fetch = none) ∧
    (∀ (url : String) (fetch : String → Except String BPage) (err : String),
      goPathsE url fetch possiblePaths = Except.error err →
      scrapeWebsiteForEmail url fetch = none) ∧
    (∀ fetch2 : String → Except String APage, extractEmailFromWebsite none fetch2 = none) ∧
    (∀ fetch2 : String → Except String APage, extractEmailFromWebsite (some "") fetch2 = none) ∧
    (∀ (u : String) (fetch2 : String → Except String APage) (err : String), u ≠ "" →
      fetch2 (normalizeUrl u) = Except.error err →
      extractEmailFromWebsite (some u) fetch2 = none) ∧
    (∀ (u : String) (fetch2 : String → Except String APage) (res : APage), u ≠ "" →
      fetch2 (normalizeUrl u) = Except.ok res → res.resOk = false →
      extractEmailFromWebsite (some u) fetch2 = none) := by
  refine ⟨?_, ?_, ?_, ?_, ?_, ?_, ?_⟩
  · intro fetch
    rfl
  · intro url fetch h
    unfold scrapeWebsiteForEmail
    by_cases hu : url = ""
    · rw [if_pos hu]
    · rw [if_neg hu, goPaths_none url fetch possiblePaths h]
  · intro url fetch err h
    unfold scrapeWebsiteForEmail
    by_cases hu : url = ""
    · rw [if_pos hu]
    · rw [if_neg hu, h]
  · intro fetch2
    rfl
  · intro fetch2
    rfl
  · intro u fetch2 err hu hf
    unfold extractEmailFromWebsite
    dsimp only
    rw [if_neg hu, hf]
  · intro u fetch2 res hu hf hok
    unfold extractEmailFromWebsite
    dsimp only
    rw [if_neg hu, hf]
    simp only [hok, Bool.not_false, if_true]

/-- C8, witness: the recovery cases at concrete worlds. -/
theorem C8_errors_recovered_witness :
    scrapeWebsiteForEmail "" (fun _ => Except.error "never") = none ∧
    scrapeWebsiteForEmail "http://x.co"
      (fun _ => Except.ok { mailtoLinks := [], content := "plain text" }) = none ∧
    scrapeWebsiteForEmail "http://y.co" (fun _ => Except.error "net::ERR_TIMED_OUT") = none ∧
    extractEmailFromWebsite (some "z.co") (fun _ => Except.error "ETIMEDOUT") = none ∧
    extractEmailFromWebsite (some "w.co")
      (fun _ => Except.ok { resOk := false, html := "mail a@b.co", mailtoFirst := none }) =
      none := by
  refine ⟨C8_errors_recovered.1 _, ?_, ?_, ?_, ?_⟩
  · exact C8_errors_recovered.2.1 "http://x.co" _
      (fun p hp => ⟨{ mailtoLinks := [], content := "plain text" }, rfl, by decide⟩)
  · exact C8_errors_recovered.2.2.1 "http://y.co" _ "net::ERR_TIMED_OUT" rfl
  · exact C8_errors_recovered.2.2.2.2.2.1 "z.co" _ "ETIMEDOUT" (by decide) rfl
  · exact C8_errors_recovered.2.2.2.2.2.2 "w.co" _
      { resOk := false, html := "mail a@b.co", mailtoFirst := none } (by decide) rfl rfl


/- ===================== Lemmas: CSV round trip ===================== -/

theorem csvRun_esc : ∀ (f rest field : List Char) (row : List String),
    csvRun (escQuotes f ++ rest) CsvMode.inQ field row =
      csvRun rest CsvMode.inQ (field ++ f) row := by
  intro f
  induction f with
  | nil =>
    intro rest field row
    simp [escQuotes]
  | cons c f ih =>
    intro rest field row
    by_cases hc : c = '"'
    · subst hc
      rw [show escQuotes ('"' :: f) = '"' :: '"' :: escQuotes f from by
        simp [escQuotes]]
      calc csvRun (('"' :: '"' :: escQuotes f) ++ rest) CsvMode.inQ field row
          = csvRun (escQuotes f ++ rest) CsvMode.inQ (field ++ ['"']) row := rfl
        _ = csvRun rest CsvMode.inQ ((field ++ ['"']) ++ f) row := ih rest _ row
        _ = csvRun rest CsvMode.inQ (field ++ '"' :: f) row := by simp
    · rw [show escQuotes (c :: f) = c :: escQuotes f from by simp [escQuotes, hc]]
      simp only [List.cons_append]
      rw [show csvRun (c :: (escQuotes f ++ rest)) CsvMode.inQ field row =
            csvRun (escQuotes f ++ rest) CsvMode.inQ (field ++ [c]) row from by
          simp [csvRun, hc]]
      rw [ih rest (field ++ [c]) row]
      simp

theorem csvRun_field_sep (s : String) (rest : List Char) (row : List String) :
    csvRun (renderField s ++ ',' :: rest) CsvMode.start [] row =
      csvRun rest CsvMode.start [] (row ++ [s]) := by
  calc csvRun (renderField s ++ ',' :: rest) CsvMode.start [] row
      = csvRun (escQuotes s.data ++ ('"' :: ',' :: rest)) CsvMode.inQ [] row := by
        simp only [renderField, List.cons_append, List.append_assoc, List.singleton_append]
        rfl
    _ = csvRun ('"' :: ',' :: rest) CsvMode.inQ ([] ++ s.data) row :=
        csvRun_esc s.data _ [] row
    _ = csvRun rest CsvMode.start [] (row ++ [String.mk s.data]) := by
        simp only [List.nil_append]
        rfl
    _ = csvRun rest CsvMode.start [] (row ++ [s]) := rfl

theorem csvRun_field_nl (s : String) (rest : List Char) (row : List String) :
    csvRun (renderField s ++ '\n' :: rest) CsvMode.start [] row =
      (row ++ [s]) :: csvRun rest CsvMode.start [] [] := by
  calc csvRun (renderField s ++ '\n' :: rest) CsvMode.start [] row
      = csvRun (escQuotes s.data ++ ('"' :: '\n' :: rest)) CsvMode.inQ [] row := by
        simp only [renderField, List.cons_append, List.append_assoc, List.singleton_append]
        rfl
    _ = csvRun ('"' :: '\n' :: rest) CsvMode.inQ ([] ++ s.data) row :=
        csvRun_esc s.data _ [] row
    _ = (row ++ [String.mk s.data]) :: csvRun rest CsvMode.start [] [] := by
        simp only [List.nil_append]
        rfl
    _ = (row ++ [s]) :: csvRun rest CsvMode.start [] [] := rfl

theorem csvRun_field_end (s : String) (row : List String) :
    csvRun (renderField s) CsvMode.start [] row = [row ++ [s]] := by
  calc csvRun (renderField s) CsvMode.start [] row
      = csvRun (escQuotes s.data ++ ['"']) CsvMode.inQ [] row := by
        simp only [renderField]
        rfl
    _ = csvRun ['"'] CsvMode.inQ ([] ++ s.data) row := csvRun_esc s.data _ [] row
    _ = [row ++ [String.mk s.data]] := by
        simp only [List.nil_append]
        rfl
    _ = [row ++ [s]] := rfl

theorem csvRun_row_nl : ∀ (fields : List String) (rest : List Char) (row : List String),
    fields ≠ [] →
    csvRun (renderRow fields ++ '\n' :: rest) CsvMode.start [] row =
      (row ++ fields) :: csvRun rest CsvMode.start [] [] := by
  intro fields
  induction fields with
  | nil =>
    intro rest row h
    exact absurd rfl h
  | cons f fs ih =>
    intro rest row _
    cases fs with
    | nil => exact csvRun_field_nl f rest row
    | cons g gs =>
      have hrow : renderRow (f :: g :: gs) = renderField f ++ ',' :: renderRow (g :: gs) := rfl
      rw [hrow]
      simp only [List.append_assoc, List.cons_append]
      rw [csvRun_field_sep f (renderRow (g :: gs) ++ '\n' :: rest) row]
      rw [ih rest (row ++ [f]) (by simp)]
      simp

theorem csvRun_row_end : ∀ (fields : List String) (row : List String),
    fields ≠ [] →
    csvRun (renderRow fields) CsvMode.start [] row = [row ++ fields] := by
  intro fields
  induction fields with
  | nil =>
    intro row h
    exact absurd rfl h
  | cons f fs ih =>
    intro row _
    cases fs with
    | nil => exact csvRun_field_end f row
    | cons g gs =>
      have hrow : renderRow (f :: g :: gs) = renderField f ++ ',' :: renderRow (g :: gs) := rfl
      rw [hrow]
      rw [csvRun_field_sep f (renderRow (g :: gs)) row]
      rw [ih (row ++ [f]) (by simp)]
      simp

theorem csvRun_rows : ∀ (rows : List (List String)),
    (∀ r ∈ rows, r ≠ []) → rows ≠ [] →
    csvRun (sepJoin '\n' (rows.map renderRow)) CsvMode.start [] [] = rows := by
  intro rows
  induction rows with
  | nil =>
    intro _ h
    exact absurd rfl h
  | cons r rs ih =>
    intro hall _
    cases rs with
    | nil =>
      simp only [List.map_cons, List.map_nil, sepJoin]
      rw [csvRun_row_end r [] (hall r (List.mem_cons_self r []))]
      simp
    | cons r2 rs2 =>
      have hsep : sepJoin '\n' ((r :: r2 :: rs2).map renderRow) =
          renderRow r ++ '\n' :: sepJoin '\n' ((r2 :: rs2).map renderRow) := rfl
      rw [hsep]
      rw [csvRun_row_nl r _ [] (hall r (List.mem_cons_self r _))]
      rw [ih (fun x hx => hall x (List.mem_cons_of_mem r hx)) (by simp)]
      simp

/- ===================== Claim C9 ===================== -/

/-- C9: exporting the final records to CSV (all six cells quoted, inner
quotes doubled) and parsing that text back with a standard CSV reader
recovers the header row and exactly the exported cell values of every
record — for arbitrary field contents, in particular addresses containing
commas, double quotes or newlines.  Null fields are exported as the empty
string (`d.f || ''`), which is what `recFields` records. -/
theorem C9_roundtrip (details : List FinalRec) :
    parseCSV (csvOfDetails details) = csvHeaderFields :: details.map recFields := by
  unfold parseCSV csvOfDetails
  cases details with
  | nil => rfl
  | cons d ds =>
    have hsep : sepJoin '\n' (csvHeader :: (d :: ds).map (fun x => renderRow (recFields x))) =
        csvHeader ++ '\n' :: sepJoin '\n' ((d :: ds).map (fun x => renderRow (recFields x))) := rfl
    have hmap : (d :: ds).map (fun x => renderRow (recFields x)) =
        ((d :: ds).map recFields).map renderRow := by
      simp [List.map_map]
    have hheader : ∀ rest : List Char,
        csvRun (csvHeader ++ '\n' :: rest) CsvMode.start [] [] =
          csvHeaderFields :: csvRun rest CsvMode.start [] [] := by
      intro rest
      rfl
    show csvRun (sepJoin '\n' (csvHeader :: (d :: ds).map (fun x => renderRow (recFields x))))
        CsvMode.start [] [] = _
    rw [hsep, hheader, hmap]
    rw [csvRun_rows ((d :: ds).map recFields) ?_ (by simp)]
    intro r hr
    obtain ⟨x, _, rfl⟩ := List.mem_map.mp hr
    simp [recFields]

/- ===================== Claim C10 ===================== -/

/-- C10, counterexample: the Reiki entry IIFE exits 1 whenever its `catch`
fires, and `csvWriter.writeRecords` failures land in that same `catch` —
so a run whose setup succeeded (browser launched, scrape completed) still
exits non-zero when writing the output CSV fails, contradicting the claim
that non-zero exits happen only on unrecoverable setup failures. -/
theorem C10_counterexample :
    reikiExit (Except.ok ()) []
      (fun _ => Except.error "EACCES: permission denied, open UK_Reiki_Prakts.csv") = 1 := rfl

/-- C10, amended: the Reiki script exits 0 after a successful scrape and
CSV write — including partial success, since every per-country failure is
swallowed before the entry point sees it — and exits 1 when the launch
(setup) fails or when the CSV write fails; the API script throws at module
load when the credential is missing (non-zero exit) and otherwise always
exits 0, even when its run fails internally and produces no output. -/
theorem C10_amended (feeds : List CountryFeed) (e : String)
    (write : List RRecord → Except String Unit)
    (regions : List RegionFeed) (worlds : String → PlaceWorld) (key : String) :
    reikiExit (Except.ok ()) feeds (fun _ => Except.ok ()) = 0 ∧
    reikiExit (Except.error e) feeds write = 1 ∧
    reikiExit (Except.ok ()) feeds (fun _ => Except.error e) = 1 ∧
    nodeExit (apiProcessRun none regions worlds) = 1 ∧
    nodeExit (apiProcessRun (some key) regions worlds) = 0 := by
  refine ⟨rfl, rfl, rfl, rfl, rfl⟩

/-- A one-city demo feed for the cap witness. -/
def c2DemoCity : List CityFeed :=
  [{ name := "Pécs", attempts := [Except.ok []] }]

/-- A healthy one-region demo feed for the cap witness. -/
def c2DemoRegion : List RegionFeed :=
  [{ name := "Utrecht",
     first := { denied := false,
                results := [{ place_id := "u1", name := some "U", formatted_address := none }],
                next_page_token := none },
     nexts := [] }]

/-- A failure-free demo world for the cap witness. -/
def c2DemoWorlds : String → PlaceWorld :=
  fun _ => { detailsOutcome := Except.ok none, emailFetch := fun _ => Except.error "off" }

/-- C2, witness: the amended cap statement applied at concrete feeds, with
the fetch-trace hypotheses discharged on the concrete traces (the Hungary
model and the API region loop both issue their first fetch at record
count 0). -/
theorem C2_amended_witness :
    (scrapeDentistsModel c2DemoCity).results.length ≤ 500 ∧
    (0 : Nat) < 500 ∧
    ((apiMain c2DemoRegion c2DemoWorlds).1.getD []).length ≤ 100 ∧
    (0 : Nat) < 100 ∧
    (paginate none [] 0 []).2.length ≤ 2 := by
  have h := C2_amended c2DemoCity c2DemoRegion c2DemoWorlds none [] []
  refine ⟨h.1, ?_, h.2.2.1, ?_, h.2.2.2.2.1⟩
  · exact h.2.1 0 (by decide)
  · exact h.2.2.2.1 0 (by decide)
